import Mathlib

/-!
Shallow embedding of the swarm file server (source: src/backup/data-1.rs).

Strings from the Rust side are modelled as lists of characters, so that every
definition is executable and every concrete instance can be settled by kernel
evaluation.  The registry (SQLite table servers) is modelled as a list of rows;
the config file and its existence are modelled as an Option over the content.
-/

/-- Rust strings, modelled as lists of characters. -/
abbrev Str := List Char

/-- ASCII whitespace test used by the model of Rust str::trim
(the requests and secrets in scope are ASCII). -/
def isWS (c : Char) : Bool := c == ' ' || c == '\t' || c == '\n' || c == '\r'

/-- Model of Rust str::trim: remove leading and trailing whitespace. -/
def rustTrim (s : Str) : Str := ((s.dropWhile isWS).reverse.dropWhile isWS).reverse

/-- Model of Rust str::split on a single-character pattern: splits at every
occurrence, keeping empty pieces; the empty string yields one empty piece. -/
def splitChar (c : Char) : Str → List Str
  | [] => [[]]
  | x :: xs =>
    if x = c then [] :: splitChar c xs
    else
      match splitChar c xs with
      | [] => [[x]]
      | h :: t => (x :: h) :: t

/-- Remove one trailing carriage return, as Rust str::lines does on each
line terminated by a newline. -/
def stripCR (s : Str) : Str :=
  if s.getLast? = some '\r' then s.dropLast else s

/-- Model of Rust str::lines: split at newline characters; every piece that was
terminated by a newline loses one trailing carriage return; a final empty piece
(from a trailing newline) is dropped; the empty string has no lines. -/
def rustLines (s : Str) : List Str :=
  if s = [] then []
  else
    match splitChar '\n' s with
    | [] => []
    | parts =>
      let front := parts.dropLast.map stripCR
      match parts.getLast? with
      | none => front
      | some last => if last = [] then front else front ++ [last]

/-- Model of Rust str::split_once on a character: split at the first
occurrence, or none when the character does not occur. -/
def splitOnce (c : Char) : Str → Option (Str × Str)
  | [] => none
  | x :: xs =>
    if x = c then some ([], xs)
    else
      match splitOnce c xs with
      | none => none
      | some (a, b) => some (x :: a, b)

/-- Value of an ASCII digit, none for any other character. -/
def digitVal (c : Char) : Option Nat :=
  if c.isDigit then some (c.toNat - '0'.toNat) else none

/-- Accumulate a decimal number from a nonempty all-digit string. -/
def parseDigits (s : Str) : Option Nat :=
  if s = [] then none
  else
    s.foldl
      (fun acc c =>
        match acc, digitVal c with
        | some a, some d => some (a * 10 + d)
        | _, _ => none)
      (some 0)

/-- Model of Rust str::parse for u32: an optional leading plus sign, one or
more ASCII digits, and failure on values above the u32 maximum. -/
def parseU32 (s : Str) : Option Nat :=
  let digits :=
    match s with
    | '+' :: rest => rest
    | _ => s
  match parseDigits digits with
  | some v => if v < 4294967296 then some v else none
  | none => none

/-- Last element of a list, or the default when the list is empty. -/
def lastOrD (l : List α) (d : α) : α :=
  match l with
  | [] => d
  | a :: t => lastOrD t a

/-! Protocol string constants (spelled out character by character; each doc
comment quotes the Rust literal). -/

/-- The verb JOIN. -/
def sJOIN : Str := ['J', 'O', 'I', 'N']

/-- The response line: Swam has been joined! -/
def sJoined : Str :=
  ['S', 'w', 'a', 'm', ' ', 'h', 'a', 's', ' ', 'b', 'e', 'e', 'n', ' ',
   'j', 'o', 'i', 'n', 'e', 'd', '!']

/-- The response line: Server already exists! -/
def sExists : Str :=
  ['S', 'e', 'r', 'v', 'e', 'r', ' ', 'a', 'l', 'r', 'e', 'a', 'd', 'y', ' ',
   'e', 'x', 'i', 's', 't', 's', '!']

/-- The response line: Unknown command! -/
def sUnknown : Str :=
  ['U', 'n', 'k', 'n', 'o', 'w', 'n', ' ', 'c', 'o', 'm', 'm', 'a', 'n', 'd', '!']

/-- The config key master_ip_address. -/
def sMasterIpKey : Str :=
  ['m', 'a', 's', 't', 'e', 'r', '_', 'i', 'p', '_', 'a', 'd', 'd', 'r', 'e',
   's', 's']

/-- The config key slave_port. -/
def sSlavePortKey : Str :=
  ['s', 'l', 'a', 'v', 'e', '_', 'p', 'o', 'r', 't']

/-- The success substring tested by the Join Client: joined -/
def sJoinedSub : Str := ['j', 'o', 'i', 'n', 'e', 'd']

/-- The Join Client message: You are already part of a swarm. Type --help for more. -/
def sAlreadySwarm : Str :=
  ['Y', 'o', 'u', ' ', 'a', 'r', 'e', ' ', 'a', 'l', 'r', 'e', 'a', 'd', 'y',
   ' ', 'p', 'a', 'r', 't', ' ', 'o', 'f', ' ', 'a', ' ', 's', 'w', 'a', 'r',
   'm', '.', ' ', 'T', 'y', 'p', 'e', ' ', '-', '-', 'h', 'e', 'l', 'p', ' ',
   'f', 'o', 'r', ' ', 'm', 'o', 'r', 'e', '.']

/-- The Join Client print label: Server: -/
def sServerLabel : Str := ['S', 'e', 'r', 'v', 'e', 'r', ':', ' ']

/-! The registry (SQLite table servers) and the connection handler. -/

/-- One row of the servers table:
id INTEGER PRIMARY KEY, ip_address VARCHAR NOT NULL,
is_active BOOLEAN DEFAULT 1, has_left BOOLEAN DEFAULT 0. -/
structure Row where
  id : Nat
  ip_address : Str
  is_active : Bool
  has_left : Bool
deriving DecidableEq

/-- The servers table, in insertion order. -/
abbrev Registry := List Row

/-- Model of SELECT COUNT(*) FROM servers WHERE ip_address = addr. -/
def countAddr (reg : Registry) (addr : Str) : Nat :=
  (reg.filter (fun r => r.ip_address == addr)).length

/-- Next rowid assigned by the store (one more than the largest id). -/
def nextId (reg : Registry) : Nat := (reg.map Row.id).foldr max 0 + 1

/-- Model of INSERT INTO servers (ip_address) VALUES (addr): the column
defaults give is_active = true and has_left = false. -/
def insertServer (reg : Registry) (addr : Str) : Registry :=
  reg ++ [{ id := nextId reg, ip_address := addr, is_active := true, has_left := false }]

/-- Outcome of one connection: either a normal return carrying the optional
response line written to the peer and the resulting registry, or a panic of
the handler thread (an out-of-bounds index), which also carries the registry
as it was left. -/
inductive HandleResult where
  | ok (response : Option Str) (reg : Registry)
  | panic (reg : Registry)
deriving DecidableEq

/-- Registry left behind by a connection, whichever way the handler ended. -/
def resultReg : HandleResult → Registry
  | HandleResult.ok _ r => r
  | HandleResult.panic r => r

/-- Model of Server::handle_connection on one request line.  The line is
trimmed and split on single spaces; indexing commands[0] and commands[1]
is modelled by the match, with a missing index mapped to panic.  The
authenticated path runs the existence check and the conditional insert under
the single lock acquisition, which the sequential model makes atomic. -/
def handle_connection (line : Str) (master_key : Str) (address : Str)
    (reg : Registry) : HandleResult :=
  match splitChar ' ' (rustTrim line) with
  | [] => HandleResult.panic reg
  | c0 :: rest =>
    if c0 = sJOIN then
      match rest with
      | [] => HandleResult.panic reg
      | tok :: _ =>
        if master_key = tok then
          if countAddr reg address > 0 then
            HandleResult.ok (some sExists) reg
          else
            HandleResult.ok (some sJoined) (insertServer reg address)
        else
          HandleResult.ok none reg
    else
      HandleResult.ok (some sUnknown) reg

/-- First token of a request line after trimming, as the handler sees it. -/
def firstToken (line : Str) : Str := (splitChar ' ' (rustTrim line)).headD []

/-! The role configuration: Server::verify_config and Server::create_config.
The existence and content of config.txt are modelled as an Option Str. -/

/-- The parsed role configuration. -/
structure Config where
  master_ip_address : Str
  slave_port : Nat
deriving DecidableEq

/-- The state of the two mutable variables before the parsing loop. -/
def defaultConfig : Config := { master_ip_address := [], slave_port := 8777 }

/-- One iteration of the parsing loop of Server::verify_config: split the
line at the first equals sign and dispatch on the key. -/
def configStep (cfg : Config) (line : Str) : Config :=
  match splitOnce '=' line with
  | none => cfg
  | some (key, value) =>
    if key = sMasterIpKey then { cfg with master_ip_address := value }
    else if key = sSlavePortKey then
      match parseU32 value with
      | some port => { cfg with slave_port := port }
      | none => cfg
    else cfg

/-- The parsing loop of Server::verify_config over the file content. -/
def parseConfigContent (content : Str) : Config :=
  (rustLines content).foldl configStep defaultConfig

/-- Model of Server::verify_config: none when config.txt is absent
(the process is Master), otherwise the parsed configuration (Member). -/
def verify_config : Option Str → Option Config
  | some content => some (parseConfigContent content)
  | none => none

/-- The content written by Server::create_config:
the format string master_ip_address={}newline slave_port={}. -/
def configContent (ip port : Str) : Str :=
  sMasterIpKey ++ '=' :: (ip ++ '\n' :: (sSlavePortKey ++ '=' :: port))

/-- Model of Server::create_config: write the formatted content only when the
file does not exist; an existing file is left untouched. -/
def create_config (file : Option Str) (ip port : Str) : Option Str :=
  match file with
  | none => some (configContent ip port)
  | some content => some content

/-! The Join Client: Server::join. -/

/-- Test whether the first list is a prefix of the second. -/
def leadsWith : Str → Str → Bool
  | [], _ => true
  | _ :: _, [] => false
  | p :: ps, c :: cs => p == c && leadsWith ps cs

/-- Model of Rust str::contains: some suffix of s starts with pat. -/
def containsSub (s pat : Str) : Bool :=
  leadsWith pat s ||
    match s with
    | [] => false
    | _ :: rest => containsSub rest pat

/-- Response handling of Server::join: the response is trimmed; when it
contains the substring joined, Server::create_config runs with the local
socket ip and port; otherwise the file state is untouched. -/
def joinResponseStep (file : Option Str) (localIp localPort : Str)
    (response : Str) : Option Str :=
  if containsSub (rustTrim response) sJoinedSub then
    create_config file localIp localPort
  else file

/-- Externally visible actions of one Server::join run. -/
inductive JoinEffect where
  | printed (msg : Str)
  | connected (addr : Str)
  | sentLine (line : Str)
deriving DecidableEq

/-- Result of one Server::join run: final config-file state, final registry
(Server::join never touches the database, so it is passed through), and the
effects in order. -/
structure JoinOutcome where
  file : Option Str
  reg : Registry
  effects : List JoinEffect
deriving DecidableEq

/-- Model of Server::join.  When verify_config reports a configuration the
whole body is one print.  Otherwise the client connects, sends the line
JOIN followed by the master key, reads and trims one response line, prints
it, and runs the response handling. -/
def join (file : Option Str) (reg : Registry) (ip_addr master_key localIp
    localPort response : Str) : JoinOutcome :=
  match verify_config file with
  | some _ => { file := file, reg := reg, effects := [JoinEffect.printed sAlreadySwarm] }
  | none =>
    { file := joinResponseStep file localIp localPort response,
      reg := reg,
      effects := [JoinEffect.connected ip_addr,
                  JoinEffect.sentLine (sJOIN ++ ' ' :: master_key),
                  JoinEffect.printed (sServerLabel ++ rustTrim response)] }

/-- The registry invariant: addresses are pairwise distinct among rows where
has_left = false. -/
def activeAddrsDistinct (reg : Registry) : Prop :=
  (reg.filter (fun r => r.has_left == false)).Pairwise
    (fun a b => a.ip_address ≠ b.ip_address)

/-! Spec-side extraction functions used to characterize verify_config:
the values that each recognized key contributes, in file order. -/

/-- Values carried by lines whose key is master_ip_address, in order. -/
def ipValues (ls : List Str) : List Str :=
  ls.filterMap fun line =>
    match splitOnce '=' line with
    | some (k, v) => if k = sMasterIpKey then some v else none
    | none => none

/-- Successfully parsed values carried by lines whose key is slave_port,
in order. -/
def portValues (ls : List Str) : List Nat :=
  ls.filterMap fun line =>
    match splitOnce '=' line with
    | some (k, v) => if k = sSlavePortKey then parseU32 v else none
    | none => none

/-! Helper lemmas about the string model. -/

lemma splitChar_ne_nil (c : Char) (s : Str) : splitChar c s ≠ [] := by
  induction s with
  | nil => simp [splitChar]
  | cons x xs ih =>
    by_cases h : x = c
    · simp [splitChar, h]
    · simp only [splitChar, if_neg h]
      cases hs : splitChar c xs with
      | nil => simp
      | cons a t => simp

lemma splitChar_of_not_mem (c : Char) (s : Str) (h : c ∉ s) : splitChar c s = [s] := by
  induction s with
  | nil => rfl
  | cons x xs ih =>
    have hx : x ≠ c := fun hxc => h (hxc ▸ List.mem_cons_self x xs)
    have hxs : c ∉ xs := fun hm => h (List.mem_cons_of_mem x hm)
    simp only [splitChar, if_neg hx, ih hxs]

lemma splitChar_append_cons (c : Char) (a b : Str) (h : c ∉ a) :
    splitChar c (a ++ c :: b) = a :: splitChar c b := by
  induction a with
  | nil => simp [splitChar]
  | cons x xs ih =>
    have hx : x ≠ c := fun hxc => h (hxc ▸ List.mem_cons_self x xs)
    have hxs : c ∉ xs := fun hm => h (List.mem_cons_of_mem x hm)
    simp only [List.cons_append, splitChar, if_neg hx, List.append_eq, ih hxs]

lemma dropWhile_isWS_eq_self (s : Str) (h : ∀ c, s.head? = some c → isWS c = false) :
    s.dropWhile isWS = s := by
  cases s with
  | nil => rfl
  | cons a t => simp [List.dropWhile_cons, h a rfl]

lemma rustTrim_eq_self (s : Str)
    (hh : ∀ c, s.head? = some c → isWS c = false)
    (hl : ∀ c, s.getLast? = some c → isWS c = false) :
    rustTrim s = s := by
  unfold rustTrim
  rw [dropWhile_isWS_eq_self s hh]
  rw [dropWhile_isWS_eq_self s.reverse
    (fun c hc => hl c (by rwa [List.head?_reverse] at hc))]
  exact List.reverse_reverse s

lemma getLast?_mem' {l : List Char} {c : Char} (h : l.getLast? = some c) : c ∈ l := by
  have := List.mem_getLast?_eq_getLast (l := l) (x := c) h
  rcases this with ⟨hne, rfl⟩
  exact List.getLast_mem hne

lemma join_line_tokens (t : Str) (hnil : t ≠ []) (hws : ∀ c ∈ t, isWS c = false) :
    splitChar ' ' (rustTrim (sJOIN ++ ' ' :: t)) = [sJOIN, t] := by
  have htrim : rustTrim (sJOIN ++ ' ' :: t) = sJOIN ++ ' ' :: t := by
    apply rustTrim_eq_self
    · intro c hc
      simp [sJOIN] at hc
      subst hc; decide
    · intro c hc
      rw [List.getLast?_append_of_ne_nil _ (by simp),
          show (' ' :: t) = [' '] ++ t from rfl,
          List.getLast?_append_of_ne_nil _ hnil] at hc
      exact hws c (getLast?_mem' hc)
  rw [htrim, splitChar_append_cons ' ' sJOIN t (by decide),
      splitChar_of_not_mem ' ' t
        (fun hm => by have := hws ' ' hm; exact absurd this (by decide))]

lemma handle_join_line (key addr t : Str) (reg : Registry)
    (hnil : t ≠ []) (hws : ∀ c ∈ t, isWS c = false) :
    handle_connection (sJOIN ++ ' ' :: t) key addr reg =
      if key = t then
        if countAddr reg addr > 0 then HandleResult.ok (some sExists) reg
        else HandleResult.ok (some sJoined) (insertServer reg addr)
      else HandleResult.ok none reg := by
  unfold handle_connection
  rw [join_line_tokens t hnil hws]
  simp

lemma countAddr_insertServer (reg : Registry) (addr : Str) :
    countAddr (insertServer reg addr) addr = countAddr reg addr + 1 := by
  simp [countAddr, insertServer, List.filter_append]

lemma countAddr_eq_zero_iff (reg : Registry) (addr : Str) :
    countAddr reg addr = 0 ↔ ∀ r ∈ reg, r.ip_address ≠ addr := by
  simp [countAddr, List.length_eq_zero, List.filter_eq_nil_iff]

lemma mem_of_countAddr_zero {reg : Registry} {addr : Str}
    (h : countAddr reg addr = 0) : ∀ r ∈ reg, r.ip_address ≠ addr := by
  rw [countAddr_eq_zero_iff] at h
  exact h

lemma foldl_configStep (ls : List Str) (cfg : Config) :
    ls.foldl configStep cfg =
      { master_ip_address := lastOrD (ipValues ls) cfg.master_ip_address,
        slave_port := lastOrD (portValues ls) cfg.slave_port } := by
  induction ls generalizing cfg with
  | nil => simp [ipValues, portValues, lastOrD]
  | cons a t ih =>
    rw [List.foldl_cons, ih (configStep cfg a)]
    cases hsplit : splitOnce '=' a with
    | none => simp [ipValues, portValues, configStep, hsplit, List.filterMap_cons]
    | some kv =>
      obtain ⟨k, v⟩ := kv
      have hkeys : (sMasterIpKey = sSlavePortKey) = False := by decide
      by_cases hik : k = sMasterIpKey
      · subst hik
        simp [ipValues, portValues, configStep, hsplit, List.filterMap_cons, lastOrD,
          hkeys]
      · by_cases hpk : k = sSlavePortKey
        · subst hpk
          cases hp : parseU32 v with
          | none =>
            simp [ipValues, portValues, configStep, hsplit, hik, hp,
              List.filterMap_cons]
          | some port =>
            simp [ipValues, portValues, configStep, hsplit, hik, hp,
              List.filterMap_cons, lastOrD]
        · simp [ipValues, portValues, configStep, hsplit, hik, hpk,
            List.filterMap_cons]

lemma splitOnce_key (c : Char) (k v : Str) (h : c ∉ k) :
    splitOnce c (k ++ c :: v) = some (k, v) := by
  induction k with
  | nil => simp [splitOnce]
  | cons x xs ih =>
    have hx : x ≠ c := fun hxc => h (hxc ▸ List.mem_cons_self x xs)
    have hxs : c ∉ xs := fun hm => h (List.mem_cons_of_mem x hm)
    simp only [List.cons_append, splitOnce, if_neg hx, List.append_eq, ih hxs]

lemma rustLines_configContent (ip port : Str)
    (h1 : '\n' ∉ ip) (h2 : ip.getLast? ≠ some '\r') (h3 : '\n' ∉ port) :
    rustLines (configContent ip port) =
      [sMasterIpKey ++ '=' :: ip, sSlavePortKey ++ '=' :: port] := by
  have hsplit : splitChar '\n' (configContent ip port) =
      [sMasterIpKey ++ '=' :: ip, sSlavePortKey ++ '=' :: port] := by
    unfold configContent
    rw [show sMasterIpKey ++ '=' :: (ip ++ '\n' :: (sSlavePortKey ++ '=' :: port))
          = (sMasterIpKey ++ '=' :: ip) ++ '\n' :: (sSlavePortKey ++ '=' :: port) by
        simp]
    rw [splitChar_append_cons '\n' _ _ (by simp [sMasterIpKey]; exact h1)]
    rw [splitChar_of_not_mem '\n' _ (by simp [sSlavePortKey]; exact h3)]
  have hne : configContent ip port ≠ [] := by simp [configContent, sMasterIpKey]
  unfold rustLines
  rw [if_neg hne, hsplit]
  have hlast2 : (sSlavePortKey ++ '=' :: port) ≠ [] := by simp [sSlavePortKey]
  have hstrip : stripCR (sMasterIpKey ++ '=' :: ip) = sMasterIpKey ++ '=' :: ip := by
    unfold stripCR
    rw [if_neg]
    intro hlast
    rw [show sMasterIpKey ++ '=' :: ip = (sMasterIpKey ++ ['=']) ++ ip by simp] at hlast
    cases hip : ip with
    | nil =>
      subst hip
      simp at hlast
    | cons a t =>
      rw [hip, List.getLast?_append_of_ne_nil _ (by simp)] at hlast
      exact h2 (hip ▸ hlast)
  simp [hstrip, hlast2]

lemma activeAddrsDistinct_insert (reg : Registry) (addr : Str)
    (hinv : activeAddrsDistinct reg) (h0 : countAddr reg addr = 0) :
    activeAddrsDistinct (insertServer reg addr) := by
  unfold activeAddrsDistinct insertServer at *
  rw [List.filter_append, List.pairwise_append]
  refine ⟨hinv, by simp, ?_⟩
  intro a ha b hb
  have ha' : a ∈ reg := List.mem_of_mem_filter ha
  have hb' : b.ip_address = addr := by
    simp [List.filter] at hb
    rw [hb]
  rw [hb']
  exact mem_of_countAddr_zero h0 a ha'

lemma resultReg_handle (line key addr : Str) (reg : Registry) :
    resultReg (handle_connection line key addr reg) = reg ∨
    (countAddr reg addr = 0 ∧
     resultReg (handle_connection line key addr reg) = insertServer reg addr) := by
  unfold handle_connection
  split
  · left; rfl
  · split
    · split
      · left; rfl
      · split
        · split
          · left; rfl
          · right
            next hcnt => exact ⟨Nat.eq_zero_of_not_pos hcnt, rfl⟩
        · left; rfl
    · left; rfl

lemma handleReg_preserves (line key addr : Str) (reg : Registry)
    (h : activeAddrsDistinct reg) :
    activeAddrsDistinct (resultReg (handle_connection line key addr reg)) := by
  rcases resultReg_handle line key addr reg with h1 | ⟨h0, h1⟩
  · rw [h1]; exact h
  · rw [h1]; exact activeAddrsDistinct_insert reg addr h h0

/-! Claim theorems. -/

/-- C1 counterexample: on the one-token line JOIN with a present but empty
token list tail, the handler reaches the out-of-bounds access to commands[1]
and panics, so the tokenization and secret comparison of the handler are not
total, contrary to the claim; no response is sent and the registry is left
unchanged, but the access is out of bounds. -/
theorem c1_one_token_join_panics :
    handle_connection ['J', 'O', 'I', 'N'] ['s', 'e', 'c'] ['1', '.', '2'] []
      = HandleResult.panic [] := by decide

/-- C1 amended: for every request line whose first token is JOIN and whose
second token is missing or different from the shared secret, the handler sends
no response and leaves the registry unchanged; when the second token is
missing the handler panics on the out-of-bounds access to commands[1] (a
per-connection thread panic, before any registry access), and when it is
present but mismatched the handler returns normally with no response. -/
theorem c1_auth_mismatch_silent (line key addr : Str) (reg : Registry)
    (h0 : firstToken line = sJOIN)
    (h1 : (splitChar ' ' (rustTrim line))[1]? ≠ some key) :
    ((splitChar ' ' (rustTrim line))[1]? = none →
        handle_connection line key addr reg = HandleResult.panic reg) ∧
    (∀ t, (splitChar ' ' (rustTrim line))[1]? = some t →
        handle_connection line key addr reg = HandleResult.ok none reg) := by
  unfold handle_connection
  cases hs : splitChar ' ' (rustTrim line) with
  | nil => exact absurd hs (splitChar_ne_nil ' ' _)
  | cons c0 rest =>
    have hc0 : c0 = sJOIN := by
      unfold firstToken at h0
      rw [hs] at h0
      simpa using h0
    rw [hs] at h1
    cases rest with
    | nil =>
      refine ⟨fun _ => ?_, fun t ht => ?_⟩
      · simp [hc0]
      · simp at ht
    | cons tok rest2 =>
      have htok : tok ≠ key := by
        intro he
        exact h1 (by simp [he])
      refine ⟨fun hnone => ?_, fun t ht => ?_⟩
      · simp at hnone
      · simp [hc0, Ne.symm htok]

/-- C1 witness: a concrete mismatched-secret line is answered with no
response and no registry change. -/
theorem c1_auth_mismatch_silent_witness :
    handle_connection ['J', 'O', 'I', 'N', ' ', 'a', 'b', 'c'] ['k'] ['1', '.', '2'] []
      = HandleResult.ok none [] :=
  (c1_auth_mismatch_silent ['J', 'O', 'I', 'N', ' ', 'a', 'b', 'c'] ['k'] ['1', '.', '2'] []
    (by decide) (by decide)).2 ['a', 'b', 'c'] (by decide)

/-- C2: for a nonempty whitespace-free secret, the line JOIN secret from an
address with no registry row responds with the line Swam has been joined! and
inserts exactly one row for that address; every later run of the same request
against a registry that has a row for the address responds with the line
Server already exists! and performs no mutation, so iterating the request any
number of times after the first leaves exactly the one inserted row. -/
theorem c2_join_once_then_exists (key addr : Str) (reg : Registry)
    (hnil : key ≠ []) (hws : ∀ c ∈ key, isWS c = false)
    (h0 : countAddr reg addr = 0) :
    handle_connection (sJOIN ++ ' ' :: key) key addr reg
        = HandleResult.ok (some sJoined) (insertServer reg addr) ∧
    countAddr (insertServer reg addr) addr = 1 ∧
    (∀ reg2 : Registry, 1 ≤ countAddr reg2 addr →
        handle_connection (sJOIN ++ ' ' :: key) key addr reg2
          = HandleResult.ok (some sExists) reg2) ∧
    (∀ n : Nat,
        (fun r => resultReg (handle_connection (sJOIN ++ ' ' :: key) key addr r))^[n]
            (insertServer reg addr) = insertServer reg addr) := by
  have hdup : ∀ reg2 : Registry, 1 ≤ countAddr reg2 addr →
      handle_connection (sJOIN ++ ' ' :: key) key addr reg2
        = HandleResult.ok (some sExists) reg2 := by
    intro reg2 hge
    rw [handle_join_line key addr key reg2 hnil hws]
    simp [Nat.lt_of_lt_of_le Nat.zero_lt_one hge]
  have hcnt1 : countAddr (insertServer reg addr) addr = 1 := by
    rw [countAddr_insertServer, h0]
  refine ⟨?_, hcnt1, hdup, fun n => Function.iterate_fixed ?_ n⟩
  · rw [handle_join_line key addr key reg hnil hws]
    simp [h0]
  · show resultReg (handle_connection (sJOIN ++ ' ' :: key) key addr (insertServer reg addr))
        = insertServer reg addr
    rw [hdup (insertServer reg addr) (le_of_eq hcnt1.symm)]
    rfl

/-- C2 witness: the first JOIN with the correct secret against the empty
registry inserts one row and reports success. -/
theorem c2_join_once_then_exists_witness :
    handle_connection ['J', 'O', 'I', 'N', ' ', 'k'] ['k'] ['1', '.', '2'] []
      = HandleResult.ok (some sJoined) (insertServer [] ['1', '.', '2']) :=
  (c2_join_once_then_exists ['k'] ['1', '.', '2'] [] (by decide) (by decide) (by decide)).1

/-- C3: the invariant that addresses are pairwise distinct among rows with
has_left false is preserved by the serialized existence-check-then-insert
sequence of every request, and hence by every sequential composition of such
handler steps. -/
theorem c3_registry_invariant_preserved (requests : List (Str × Str × Str))
    (reg : Registry) (h : activeAddrsDistinct reg) :
    activeAddrsDistinct
      (requests.foldl
        (fun r q => resultReg (handle_connection q.1 q.2.1 q.2.2 r)) reg) := by
  induction requests generalizing reg with
  | nil => exact h
  | cons q t ih =>
    exact ih _ (handleReg_preserves q.1 q.2.1 q.2.2 reg h)

/-- C3 witness: one authenticated JOIN applied to the empty registry keeps
the invariant. -/
theorem c3_registry_invariant_preserved_witness :
    activeAddrsDistinct
      ([(['J', 'O', 'I', 'N', ' ', 'k'], ['k'], ['1', '.', '2'])].foldl
        (fun r q => resultReg (handle_connection q.1 q.2.1 q.2.2 r)) []) :=
  c3_registry_invariant_preserved
    [(['J', 'O', 'I', 'N', ' ', 'k'], ['k'], ['1', '.', '2'])] [] List.Pairwise.nil

/-- C4: for every whitespace-free nonempty token different from the shared
secret, the line JOIN token leaves the registry exactly unchanged and sends
no response. -/
theorem c4_wrong_secret_frame (key addr tok : Str) (reg : Registry)
    (hne : tok ≠ key) (hnil : tok ≠ []) (hws : ∀ c ∈ tok, isWS c = false) :
    handle_connection (sJOIN ++ ' ' :: tok) key addr reg = HandleResult.ok none reg := by
  rw [handle_join_line key addr tok reg hnil hws]
  simp [Ne.symm hne]

/-- C4 witness: a concrete wrong secret mutates nothing. -/
theorem c4_wrong_secret_frame_witness :
    handle_connection ['J', 'O', 'I', 'N', ' ', 'x'] ['k'] ['1', '.', '2'] []
      = HandleResult.ok none [] :=
  c4_wrong_secret_frame ['k'] ['1', '.', '2'] ['x'] [] (by decide) (by decide) (by decide)

/-- C5: every request line whose first token is not JOIN gets the exact
response line Unknown command! and leaves the registry unchanged. -/
theorem c5_unknown_command_response (line key addr : Str) (reg : Registry)
    (h : firstToken line ≠ sJOIN) :
    handle_connection line key addr reg = HandleResult.ok (some sUnknown) reg := by
  unfold handle_connection
  split
  · next heq => exact absurd heq (splitChar_ne_nil ' ' _)
  · next c0 rest heq =>
    have hc0 : c0 ≠ sJOIN := by
      unfold firstToken at h
      rw [heq] at h
      simpa using h
    rw [if_neg hc0]

/-- C5 witness: a concrete non-JOIN line gets the unknown-command line. -/
theorem c5_unknown_command_response_witness :
    handle_connection ['H', 'I'] ['k'] ['1', '.', '2'] []
      = HandleResult.ok (some sUnknown) [] :=
  c5_unknown_command_response ['H', 'I'] ['k'] ['1', '.', '2'] [] (by decide)

/-- C6: verify_config returns the Master outcome (none) exactly for the
absent file, and for every present content returns the Member configuration
whose slave_port is the last successfully parsed slave_port value with
default 8777 when absent or unparseable, and whose master_ip_address is the
last master_ip_address value with default the empty string. -/
theorem c6_verify_config_characterization :
    verify_config none = none ∧
    ∀ content, verify_config (some content) =
      some { master_ip_address := lastOrD (ipValues (rustLines content)) [],
             slave_port := lastOrD (portValues (rustLines content)) 8777 } := by
  refine ⟨rfl, fun content => ?_⟩
  show some (parseConfigContent content) = _
  unfold parseConfigContent
  rw [foldl_configStep]
  rfl

/-- C7: the Join Client persists the role configuration, with the local ip
and port of the connection, exactly when the trimmed response contains the
substring joined, and only when no config file exists yet; an existing file
is left with its contents unchanged, and a response without the substring
changes nothing. -/
theorem c7_join_response_persistence (file : Option Str) (lip lport resp : Str) :
    (containsSub (rustTrim resp) sJoinedSub = true →
       (file = none →
          joinResponseStep file lip lport resp = some (configContent lip lport)) ∧
       (∀ c, file = some c → joinResponseStep file lip lport resp = some c)) ∧
    (containsSub (rustTrim resp) sJoinedSub = false →
       joinResponseStep file lip lport resp = file) := by
  constructor
  · intro hc
    constructor
    · intro hf
      subst hf
      simp [joinResponseStep, hc, create_config]
    · intro c hf
      subst hf
      simp [joinResponseStep, hc, create_config]
  · intro hc
    simp [joinResponseStep, hc]

/-- C7 witness: the literal success response creates the config file from
the empty file state. -/
theorem c7_join_response_persistence_witness :
    joinResponseStep none ['1'] ['2'] sJoined = some (configContent ['1'] ['2']) :=
  ((c7_join_response_persistence none ['1'] ['2'] sJoined).1 (by decide)).1 rfl

/-- C8: whenever verify_config reports a configuration (the role file is
present), Server::join only prints the already-joined message: it opens no
connection, sends no line, and leaves the config file and the registry
unchanged. -/
theorem c8_join_member_noop (file : Option Str) (reg : Registry)
    (ip key lip lport resp : Str)
    (h : (verify_config file).isSome = true) :
    join file reg ip key lip lport resp =
      { file := file, reg := reg, effects := [JoinEffect.printed sAlreadySwarm] } := by
  cases file with
  | none => simp [verify_config] at h
  | some c => rfl

/-- C8 witness: a present config file makes a concrete join run a pure
no-op print. -/
theorem c8_join_member_noop_witness :
    join (some ['x']) [] ['a'] ['k'] ['l'] ['p'] ['r'] =
      { file := some ['x'], reg := [], effects := [JoinEffect.printed sAlreadySwarm] } :=
  c8_join_member_noop (some ['x']) [] ['a'] ['k'] ['l'] ['p'] ['r'] (by decide)

/-- C9: the empty request line tokenizes to the single empty first token,
and the handler answers it with the exact line Unknown command! leaving the
registry unchanged; it is not a silent drop. -/
theorem c9_empty_line_unknown (key addr : Str) (reg : Registry) :
    splitChar ' ' (rustTrim []) = [[]] ∧
    handle_connection [] key addr reg = HandleResult.ok (some sUnknown) reg :=
  ⟨rfl, rfl⟩

/-- C10 counterexample: the ip string consisting of the letter a followed by
a carriage return contains no newline, yet the round trip through
create_config and verify_config drops the trailing carriage return (the lines
iterator strips it before the newline), so the recovered master_ip_address
differs from the written ip. -/
theorem c10_trailing_cr_roundtrip_fails :
    ('\n' ∉ (['a', '\r'] : Str)) ∧
    verify_config (create_config none ['a', '\r'] ['1'])
      = some { master_ip_address := ['a'], slave_port := 1 } ∧
    (['a'] : Str) ≠ ['a', '\r'] := by decide

/-- C10 amended: for every ip containing no newline and not ending in a
carriage return, and every port string without a newline that the u32 parser
accepts with value n, creating the config file from the empty state and then
running verify_config yields the Member configuration with exactly that ip
and slave_port n. -/
theorem c10_roundtrip_amended (ip port : Str) (n : Nat)
    (h1 : '\n' ∉ ip) (h2 : ip.getLast? ≠ some '\r')
    (h3 : '\n' ∉ port) (h4 : parseU32 port = some n) :
    verify_config (create_config none ip port)
      = some { master_ip_address := ip, slave_port := n } := by
  show some (parseConfigContent (configContent ip port)) = _
  unfold parseConfigContent
  rw [rustLines_configContent ip port h1 h2 h3]
  rw [show [sMasterIpKey ++ '=' :: ip, sSlavePortKey ++ '=' :: port].foldl
        configStep defaultConfig
        = configStep (configStep defaultConfig (sMasterIpKey ++ '=' :: ip))
            (sSlavePortKey ++ '=' :: port) from rfl]
  rw [show configStep defaultConfig (sMasterIpKey ++ '=' :: ip)
        = { master_ip_address := ip, slave_port := 8777 } by
      unfold configStep
      rw [splitOnce_key '=' _ _ (by decide)]
      simp [defaultConfig]]
  unfold configStep
  rw [splitOnce_key '=' _ _ (by decide)]
  have hk : (sSlavePortKey = sMasterIpKey) = False := by decide
  simp [hk, h4]

/-- C10 witness: a concrete dotted ip and the port 80 round-trip exactly. -/
theorem c10_roundtrip_amended_witness :
    verify_config (create_config none ['1', '.', '2'] ['8', '0'])
      = some { master_ip_address := ['1', '.', '2'], slave_port := 80 } :=
  c10_roundtrip_amended ['1', '.', '2'] ['8', '0'] 80
    (by decide) (by decide) (by decide) (by decide)
